import Mathlib

/-!
Verification of the finance-dashboard backend's cache-consistency layer and
analytics aggregation engine, shallowly embedded from the Go sources
(`handlers.go`, `database.go`, schema in the migration files).

Modelling conventions:
* Monetary amounts are `DECIMAL(10,2)` in the store; they are embedded as
  integer cents (`Int`).
* SQL `DATE` values are embedded as `Int` day numbers, ordered as dates are.
* `CURRENT_DATE` is passed in explicitly as `today : Int`.
* Go slices are `GoSlice α := Option (List α)`: `none` is a nil slice
  (JSON `null`), `some l` a non-nil slice (JSON array).
* The Redis cache is an association list from string keys to a payload and
  the TTL the entry was written with.  Serialized payloads are modelled at
  the granularity the handlers distinguish: a `[]Transaction` JSON value, an
  `Analytics` JSON value, or bytes that deserialize into neither.
* Fallibility of the store statement and of each cache operation is made
  explicit through boolean fields of a request environment `ReqEnv`: the
  handler's control flow branches on them exactly where the Go code branches
  on the corresponding `err`.
-/

/-- `categories` table row / `Category` struct of `database.go`. -/
structure Category where
  id : Int
  name : String
  type : String
  color : String
  createdAt : String
deriving DecidableEq

/-- A row of the `transactions` table (schema columns of `migrate.go`):
id, date, description, amount, category_id, type, notes, created_at. -/
structure TxRow where
  id : Int
  date : Int
  description : String
  amount : Int
  categoryId : Option Int
  type : String
  notes : Option String
  createdAt : String
deriving DecidableEq

/-- The `Transaction` struct of `database.go`: the table columns plus the
category name/color populated by the listing query's left join. -/
structure Transaction where
  id : Int
  date : Int
  description : String
  amount : Int
  categoryId : Option Int
  type : String
  notes : Option String
  createdAt : String
  categoryName : Option String
  categoryColor : Option String
deriving DecidableEq

/-- `AnalyticsSummary` struct of `database.go`. -/
structure AnalyticsSummary where
  totalIncome : Int
  totalExpenses : Int
  transactionCount : Int
deriving DecidableEq

/-- `CategoryAnalytics` struct of `database.go`. -/
structure CategoryAnalytics where
  name : String
  color : String
  total : Int
deriving DecidableEq

/-- A Go slice: `none` is the nil slice (marshals to JSON `null`),
`some l` a non-nil slice (marshals to a JSON array). -/
abbrev GoSlice (α : Type) := Option (List α)

/-- `Analytics` struct of `database.go`. -/
structure Analytics where
  summary : AnalyticsSummary
  byCategory : GoSlice CategoryAnalytics
deriving DecidableEq

/-- The client-supplied fields of a transaction creation request
(the columns of the `INSERT` in `addTransaction`). -/
structure NewTransaction where
  date : Int
  description : String
  amount : Int
  categoryId : Option Int
  type : String
  notes : Option String
deriving DecidableEq

/-- The durable Store: the two tables the core reads, plus the `SERIAL`
sequence counter for `transactions.id`. -/
structure Store where
  transactions : List TxRow
  categories : List Category
  nextId : Int
deriving DecidableEq

/-- A serialized cache payload, at the granularity the handlers
distinguish when calling `json.Unmarshal`. -/
inductive Payload
  | txJson (v : GoSlice Transaction)
  | analyticsJson (v : Analytics)
  | corrupt (bytes : String)
deriving DecidableEq

/-- `json.Unmarshal(cached, &transactions)` for `[]Transaction`:
succeeds exactly on a `[]Transaction` JSON payload. -/
def unmarshalTransactions : Payload → Option (GoSlice Transaction)
  | .txJson v => some v
  | _ => none

/-- `json.Unmarshal(cached, &analytics)` for `Analytics`:
succeeds exactly on an `Analytics` JSON payload. -/
def unmarshalAnalytics : Payload → Option Analytics
  | .analyticsJson v => some v
  | _ => none

/-- Redis contents: key, payload, and the TTL (in seconds) the entry was
last written with. -/
abbrev CacheMap := List (String × Payload × Nat)

/-- `GET key`: payload of the entry under `key`, if present. -/
def cacheGet (m : CacheMap) (k : String) : Option Payload :=
  (m.find? (fun e => e.1 == k)).map (fun e => e.2.1)

/-- TTL recorded for the entry under `key`, if present. -/
def cacheTTL (m : CacheMap) (k : String) : Option Nat :=
  (m.find? (fun e => e.1 == k)).map (fun e => e.2.2)

/-- `SETEX key ttl value`: overwrite whatever was under `key`. -/
def cacheSet (m : CacheMap) (k : String) (p : Payload) (ttl : Nat) : CacheMap :=
  (k, p, ttl) :: m.filter (fun e => e.1 != k)

/-- `DEL key`: drop the entry under `key`. -/
def cacheDel (m : CacheMap) (k : String) : CacheMap :=
  m.filter (fun e => e.1 != k)

/-- Outcome of the fallible external calls a single request makes, making
the Go error branches explicit: `dbOk` — the store statement(s) succeed;
`setOk` — a cache `SETEX` takes effect; `delTxOk`/`delAnOk` — the `DEL` of
the `transactions` / `analytics` key takes effect.  Failed cache operations
leave the cache unchanged and are ignored by the handlers, exactly as the
Go code ignores those errors. -/
structure ReqEnv where
  dbOk : Bool
  setOk : Bool
  delTxOk : Bool
  delAnOk : Bool
deriving DecidableEq

/-- A handler response: a 2xx JSON body, or an aborting error response. -/
inductive HResp (α : Type)
  | ok (v : α)
  | err
deriving DecidableEq

/-- Insertion step of insertion sort by a boolean relation. -/
def insertLe {α : Type} (le : α → α → Bool) (a : α) : List α → List α
  | [] => [a]
  | b :: l => if le a b then a :: b :: l else b :: insertLe le a l

/-- Insertion sort by a boolean relation; embeds SQL `ORDER BY`
(tie order among equal keys is unspecified in SQL; this picks one). -/
def sortLe {α : Type} (le : α → α → Bool) : List α → List α
  | [] => []
  | a :: l => insertLe le a (sortLe le l)

/-- `LEFT JOIN categories c ON t.category_id = c.id`: the matching
category, if the row has one and it exists. -/
def lookupCategory (cats : List Category) (cid : Option Int) : Option Category :=
  cid.bind (fun i => cats.find? (fun c => c.id == i))

/-- Build one listing row: the transaction's columns plus the left-joined
category name/color (null when uncategorized or dangling). -/
def joinRow (cats : List Category) (r : TxRow) : Transaction :=
  let c := lookupCategory cats r.categoryId
  { id := r.id, date := r.date, description := r.description, amount := r.amount,
    categoryId := r.categoryId, type := r.type, notes := r.notes,
    createdAt := r.createdAt,
    categoryName := c.map (·.name), categoryColor := c.map (·.color) }

/-- The listing query of `getTransactions`:
`SELECT ... LEFT JOIN categories ... ORDER BY t.date DESC LIMIT 100`. -/
def queryTransactions (s : Store) : List Transaction :=
  ((sortLe (fun a b => decide (b.date ≤ a.date)) s.transactions).take 100).map
    (joinRow s.categories)

/-- `date >= CURRENT_DATE - INTERVAL '30 days'`. -/
def inWindow (today : Int) (r : TxRow) : Bool :=
  decide (today - 30 ≤ r.date)

/-- The summary query of `getAnalytics`: conditional sums
(`SUM(CASE WHEN type = ... THEN amount ELSE 0 END)`, `COALESCE`d to 0,
which the sum of an empty list already is) and `COUNT(*)` over the
30-day window. -/
def summaryQuery (today : Int) (s : Store) : AnalyticsSummary :=
  let w := s.transactions.filter (fun r => inWindow today r)
  { totalIncome := (w.map (fun r => if r.type == "income" then r.amount else 0)).sum
    totalExpenses := (w.map (fun r => if r.type == "expense" then r.amount else 0)).sum
    transactionCount := (w.length : Int) }

/-- The rows feeding the by-category query: expense transactions in the
window, inner-joined (`JOIN categories c ON t.category_id = c.id`) to their
category, yielding `(c.name, c.color, t.amount)`. -/
def joinedExpenses (today : Int) (s : Store) : List (String × String × Int) :=
  s.transactions.filterMap (fun r =>
    if inWindow today r && r.type == "expense" then
      match lookupCategory s.categories r.categoryId with
      | some c => some (c.name, c.color, r.amount)
      | none => none
    else none)

/-- `GROUP BY c.name, c.color`: the distinct grouping keys. -/
def groupKeys (l : List (String × String × Int)) : List (String × String) :=
  (l.map (fun r => (r.1, r.2.1))).dedup

/-- `SUM(t.amount)` within one group. -/
def groupTotal (l : List (String × String × Int)) (k : String × String) : Int :=
  ((l.filter (fun r => (r.1, r.2.1) == k)).map (fun r => r.2.2)).sum

/-- The by-category query of `getAnalytics`: group the joined expense rows
by `(name, color)`, sum each group, `ORDER BY total DESC`. -/
def categoryQuery (today : Int) (s : Store) : List CategoryAnalytics :=
  sortLe (fun a b => decide (b.total ≤ a.total))
    ((groupKeys (joinedExpenses today s)).map
      (fun k => { name := k.1, color := k.2, total := groupTotal (joinedExpenses today s) k }))

/-- The full Store-computed analytics value assembled by `getAnalytics`
(`byCategory` is `make([]CategoryAnalytics, 0)` plus appends: non-nil). -/
def queryAnalytics (today : Int) (s : Store) : Analytics :=
  { summary := summaryQuery today s, byCategory := some (categoryQuery today s) }

/-- Store path of `getTransactions`: query (500 on failure), then
best-effort `SETEX transactions 60` whose failure is ignored. -/
def getTransactionsStore (env : ReqEnv) (redis : Option CacheMap) (s : Store) :
    HResp (GoSlice Transaction) × Option CacheMap :=
  if env.dbOk then
    let v : GoSlice Transaction := some (queryTransactions s)
    (HResp.ok v,
      match redis with
      | some m => some (if env.setOk then cacheSet m "transactions" (.txJson v) 60 else m)
      | none => none)
  else (HResp.err, redis)

/-- `getTransactions` of `handlers.go`: serve a cache hit that unmarshals
(`GET` errors and misses both fall through), else the store path. -/
def getTransactions (env : ReqEnv) (redis : Option CacheMap) (s : Store) :
    HResp (GoSlice Transaction) × Option CacheMap :=
  match redis with
  | some m =>
    match (cacheGet m "transactions").bind unmarshalTransactions with
    | some v => (HResp.ok v, some m)
    | none => getTransactionsStore env (some m) s
  | none => getTransactionsStore env none s

/-- Store path of `getAnalytics`: the two queries (500 on failure), then
best-effort `SETEX analytics 300` (5 minutes) whose failure is ignored. -/
def getAnalyticsStore (env : ReqEnv) (redis : Option CacheMap) (today : Int) (s : Store) :
    HResp Analytics × Option CacheMap :=
  if env.dbOk then
    let a := queryAnalytics today s
    (HResp.ok a,
      match redis with
      | some m => some (if env.setOk then cacheSet m "analytics" (.analyticsJson a) 300 else m)
      | none => none)
  else (HResp.err, redis)

/-- `getAnalytics` of `handlers.go`: serve a cache hit that unmarshals,
else the store path. -/
def getAnalytics (env : ReqEnv) (redis : Option CacheMap) (today : Int) (s : Store) :
    HResp Analytics × Option CacheMap :=
  match redis with
  | some m =>
    match (cacheGet m "analytics").bind unmarshalAnalytics with
    | some a => (HResp.ok a, some m)
    | none => getAnalyticsStore env (some m) today s
  | none => getAnalyticsStore env none today s

/-- The `INSERT ... RETURNING` of `addTransaction`: append a row with the
next `SERIAL` identifier and the store-assigned creation timestamp. -/
def insertTransaction (s : Store) (now : String) (t : NewTransaction) : TxRow × Store :=
  let row : TxRow :=
    { id := s.nextId, date := t.date, description := t.description, amount := t.amount,
      categoryId := t.categoryId, type := t.type, notes := t.notes, createdAt := now }
  (row, { s with transactions := s.transactions ++ [row], nextId := s.nextId + 1 })

/-- The invalidation block both mutation handlers run on success:
`DEL transactions` then `DEL analytics`, each best-effort, without the
handler inspecting either result. -/
def invalidate (env : ReqEnv) (redis : Option CacheMap) : Option CacheMap :=
  match redis with
  | none => none
  | some m =>
    let m1 := if env.delTxOk then cacheDel m "transactions" else m
    some (if env.delAnOk then cacheDel m1 "analytics" else m1)

/-- `addTransaction` of `handlers.go`: insert (500 aborts before any cache
interaction), then invalidate both keys; the response row is the scanned
`RETURNING` columns, so its joined fields stay nil. -/
def addTransaction (env : ReqEnv) (redis : Option CacheMap) (now : String) (s : Store)
    (t : NewTransaction) : HResp Transaction × Store × Option CacheMap :=
  if env.dbOk then
    let (row, s') := insertTransaction s now t
    let result : Transaction :=
      { id := row.id, date := row.date, description := row.description, amount := row.amount,
        categoryId := row.categoryId, type := row.type, notes := row.notes,
        createdAt := row.createdAt, categoryName := none, categoryColor := none }
    (HResp.ok result, s', invalidate env redis)
  else (HResp.err, s, redis)

/-- `deleteTransaction` of `handlers.go`:
`DELETE FROM transactions WHERE id = $1` (500 aborts before any cache
interaction), then invalidate both keys; deleting nothing still succeeds. -/
def deleteTransaction (env : ReqEnv) (redis : Option CacheMap) (s : Store) (id : Int) :
    HResp Unit × Store × Option CacheMap :=
  if env.dbOk then
    let s' : Store := { s with transactions := s.transactions.filter (fun r => r.id != id) }
    (HResp.ok (), s', invalidate env redis)
  else (HResp.err, s, redis)

/-! ### Cache lemmas -/

theorem cacheGet_cons (e : String × Payload × Nat) (m : CacheMap) (k : String) :
    cacheGet (e :: m) k = if (e.1 == k) = true then some e.2.1 else cacheGet m k := by
  by_cases h : (e.1 == k) = true
  · rw [if_pos h]
    show Option.map _ (List.find? _ (e :: m)) = _
    rw [@List.find?_cons_of_pos _ (fun x => x.1 == k) e m h]
    rfl
  · rw [if_neg h]
    show Option.map _ (List.find? _ (e :: m)) = _
    rw [@List.find?_cons_of_neg _ (fun x => x.1 == k) e m h]
    rfl

theorem cacheDel_cons (e : String × Payload × Nat) (m : CacheMap) (k : String) :
    cacheDel (e :: m) k = if (e.1 == k) = true then cacheDel m k else e :: cacheDel m k := by
  by_cases h : (e.1 == k) = true
  · rw [if_pos h]
    show List.filter _ (e :: m) = _
    rw [List.filter_cons, if_neg (by simp [bne, h])]
    rfl
  · rw [if_neg h]
    have h' : (e.1 == k) = false := by simpa using h
    show List.filter _ (e :: m) = _
    rw [List.filter_cons, if_pos (by simp [bne, h'])]
    rfl

theorem cacheGet_cacheDel_self (m : CacheMap) (k : String) :
    cacheGet (cacheDel m k) k = none := by
  induction m with
  | nil => rfl
  | cons e m ih =>
    rw [cacheDel_cons]
    by_cases h : (e.1 == k) = true
    · rw [if_pos h]
      exact ih
    · rw [if_neg h, cacheGet_cons, if_neg h]
      exact ih

theorem cacheGet_cacheDel_ne (m : CacheMap) (k k' : String) (h : (k' == k) = false) :
    cacheGet (cacheDel m k) k' = cacheGet m k' := by
  have hne : k' ≠ k := by simpa using h
  induction m with
  | nil => rfl
  | cons e m ih =>
    rw [cacheDel_cons, cacheGet_cons e m k']
    by_cases he : (e.1 == k) = true
    · rw [if_pos he]
      have he' : ¬ ((e.1 == k') = true) := by
        simp only [beq_iff_eq] at he ⊢
        rw [he]
        exact fun hk => hne hk.symm
      rw [if_neg he', ih]
    · rw [if_neg he, cacheGet_cons]
      by_cases he2 : (e.1 == k') = true
      · rw [if_pos he2, if_pos he2]
      · rw [if_neg he2, if_neg he2, ih]

/-! ### Insertion-sort lemmas -/

theorem insertLe_perm {α : Type} (le : α → α → Bool) (a : α) (l : List α) :
    (insertLe le a l).Perm (a :: l) := by
  induction l with
  | nil => exact List.Perm.refl _
  | cons b l ih =>
    rw [insertLe]
    by_cases h : le a b = true
    · rw [if_pos h]
    · rw [if_neg h]
      exact (List.Perm.cons b ih).trans (List.Perm.swap a b l)

theorem sortLe_perm {α : Type} (le : α → α → Bool) (l : List α) :
    (sortLe le l).Perm l := by
  induction l with
  | nil => exact List.Perm.refl _
  | cons a l ih =>
    exact (insertLe_perm le a (sortLe le l)).trans (List.Perm.cons a ih)

theorem pairwise_insertLe {α : Type} (le : α → α → Bool)
    (htot : ∀ a b, le a b = false → le b a = true)
    (htrans : ∀ a b c, le a b = true → le b c = true → le a c = true)
    (a : α) :
    ∀ l : List α, l.Pairwise (fun x y => le x y = true) →
      (insertLe le a l).Pairwise (fun x y => le x y = true) := by
  intro l
  induction l with
  | nil =>
    intro _
    simp [insertLe]
  | cons b l ih =>
    intro h
    rw [List.pairwise_cons] at h
    obtain ⟨hb, hl⟩ := h
    rw [insertLe]
    by_cases hab : le a b = true
    · rw [if_pos hab]
      refine List.pairwise_cons.mpr ⟨?_, List.pairwise_cons.mpr ⟨hb, hl⟩⟩
      intro x hx
      rcases List.mem_cons.mp hx with hxb | hx
      · rw [hxb]
        exact hab
      · exact htrans a b x hab (hb x hx)
    · rw [if_neg hab]
      refine List.pairwise_cons.mpr ⟨?_, ih hl⟩
      intro x hx
      rcases List.mem_cons.mp ((insertLe_perm le a l).mem_iff.mp hx) with hxa | hx
      · rw [hxa]
        exact htot a b (by simpa using hab)
      · exact hb x hx

theorem pairwise_sortLe {α : Type} (le : α → α → Bool)
    (htot : ∀ a b, le a b = false → le b a = true)
    (htrans : ∀ a b c, le a b = true → le b c = true → le a c = true)
    (l : List α) :
    (sortLe le l).Pairwise (fun x y => le x y = true) := by
  induction l with
  | nil => simp [sortLe]
  | cons a l ih => exact pairwise_insertLe le htot htrans a (sortLe le l) ih

/-! ### Summation and filtering lemmas -/

theorem sum_map_ite_eq_sum_filter (l : List TxRow) (p : TxRow → Bool) :
    (l.map (fun r => if p r then r.amount else 0)).sum
      = ((l.filter p).map (fun r => r.amount)).sum := by
  induction l with
  | nil => rfl
  | cons r l ih =>
    by_cases h : p r = true
    · simp [List.filter_cons, h, ih]
    · have h' : p r = false := by simpa using h
      simp [List.filter_cons, h', ih]

/-! ### Handler-level helper lemmas -/

theorem invalidate_spec (env : ReqEnv) (m : CacheMap)
    (hdt : env.delTxOk = true) (hda : env.delAnOk = true) :
    ∃ m', invalidate env (some m) = some m' ∧
      cacheGet m' "transactions" = none ∧ cacheGet m' "analytics" = none := by
  refine ⟨cacheDel (cacheDel m "transactions") "analytics", ?_, ?_, ?_⟩
  · simp [invalidate, hdt, hda]
  · rw [cacheGet_cacheDel_ne _ _ _ (by decide)]
    exact cacheGet_cacheDel_self _ _
  · exact cacheGet_cacheDel_self _ _

theorem getAnalytics_miss (renv : ReqEnv) (m' : CacheMap) (today : Int) (s : Store)
    (h : cacheGet m' "analytics" = none) (hr : renv.dbOk = true) :
    (getAnalytics renv (some m') today s).1 = HResp.ok (queryAnalytics today s) := by
  simp [getAnalytics, h, getAnalyticsStore, hr]

theorem addTransaction_cacheAfter (env : ReqEnv) (redis : Option CacheMap)
    (now : String) (s : Store) (t : NewTransaction) (hdb : env.dbOk = true) :
    (addTransaction env redis now s t).2.2 = invalidate env redis := by
  simp [addTransaction, hdb, insertTransaction]

theorem deleteTransaction_cacheAfter (env : ReqEnv) (redis : Option CacheMap)
    (s : Store) (id : Int) (hdb : env.dbOk = true) :
    (deleteTransaction env redis s id).2.2 = invalidate env redis := by
  simp [deleteTransaction, hdb]

/-- Claim C1: every successful create or delete deletes both the
`transactions` and `analytics` cache keys (unconditionally), so that a
subsequent analytics read — whose invalidation succeeded — misses the
cache, recomputes from the Store, and reflects the mutated store state. -/
theorem claim_C1_mutations_invalidate_both_keys
    (env renv : ReqEnv) (m : CacheMap) (now : String) (s : Store)
    (t : NewTransaction) (id today : Int)
    (hdb : env.dbOk = true) (hdt : env.delTxOk = true) (hda : env.delAnOk = true)
    (hr : renv.dbOk = true) :
    (∃ m', (addTransaction env (some m) now s t).2.2 = some m' ∧
      cacheGet m' "transactions" = none ∧ cacheGet m' "analytics" = none ∧
      (getAnalytics renv (some m') today (addTransaction env (some m) now s t).2.1).1
        = HResp.ok (queryAnalytics today (addTransaction env (some m) now s t).2.1)) ∧
    (∃ m', (deleteTransaction env (some m) s id).2.2 = some m' ∧
      cacheGet m' "transactions" = none ∧ cacheGet m' "analytics" = none ∧
      (getAnalytics renv (some m') today (deleteTransaction env (some m) s id).2.1).1
        = HResp.ok (queryAnalytics today (deleteTransaction env (some m) s id).2.1)) := by
  obtain ⟨m', hm, h1, h2⟩ := invalidate_spec env m hdt hda
  constructor
  · refine ⟨m', ?_, h1, h2, ?_⟩
    · rw [addTransaction_cacheAfter env (some m) now s t hdb]
      exact hm
    · exact getAnalytics_miss renv m' today _ h2 hr
  · refine ⟨m', ?_, h1, h2, ?_⟩
    · rw [deleteTransaction_cacheAfter env (some m) s id hdb]
      exact hm
    · exact getAnalytics_miss renv m' today _ h2 hr

theorem claim_C1_mutations_invalidate_both_keys_witness :
    (∃ m', (addTransaction ⟨true, true, true, true⟩ (some []) "now" ⟨[], [], 1⟩
        ⟨0, "d", 100, none, "expense", none⟩).2.2 = some m' ∧
      cacheGet m' "transactions" = none ∧ cacheGet m' "analytics" = none ∧
      (getAnalytics ⟨true, true, true, true⟩ (some m') 0
          (addTransaction ⟨true, true, true, true⟩ (some []) "now" ⟨[], [], 1⟩
            ⟨0, "d", 100, none, "expense", none⟩).2.1).1
        = HResp.ok (queryAnalytics 0
            (addTransaction ⟨true, true, true, true⟩ (some []) "now" ⟨[], [], 1⟩
              ⟨0, "d", 100, none, "expense", none⟩).2.1)) ∧
    (∃ m', (deleteTransaction ⟨true, true, true, true⟩ (some []) ⟨[], [], 1⟩ 1).2.2 = some m' ∧
      cacheGet m' "transactions" = none ∧ cacheGet m' "analytics" = none ∧
      (getAnalytics ⟨true, true, true, true⟩ (some m') 0
          (deleteTransaction ⟨true, true, true, true⟩ (some []) ⟨[], [], 1⟩ 1).2.1).1
        = HResp.ok (queryAnalytics 0
            (deleteTransaction ⟨true, true, true, true⟩ (some []) ⟨[], [], 1⟩ 1).2.1)) :=
  claim_C1_mutations_invalidate_both_keys ⟨true, true, true, true⟩ ⟨true, true, true, true⟩
    [] "now" ⟨[], [], 1⟩ ⟨0, "d", 100, none, "expense", none⟩ 1 0 rfl rfl rfl rfl

/-- Claim C2: a configured cache hit whose payload unmarshals is returned
immediately with the cache untouched; otherwise the result is computed from
the Store and written back with TTL 60 (`transactions`) resp. 300
(`analytics`); a failed cache population leaves the read's response
unchanged. -/
theorem claim_C2_read_path_policy (env : ReqEnv) :
    (∀ (m : CacheMap) (p : Payload) (v : GoSlice Transaction) (s : Store),
      cacheGet m "transactions" = some p → unmarshalTransactions p = some v →
      getTransactions env (some m) s = (HResp.ok v, some m)) ∧
    (∀ (m : CacheMap) (p : Payload) (a : Analytics) (today : Int) (s : Store),
      cacheGet m "analytics" = some p → unmarshalAnalytics p = some a →
      getAnalytics env (some m) today s = (HResp.ok a, some m)) ∧
    (∀ (m : CacheMap) (s : Store),
      (cacheGet m "transactions").bind unmarshalTransactions = none →
      env.dbOk = true → env.setOk = true →
      getTransactions env (some m) s
        = (HResp.ok (some (queryTransactions s)),
           some (cacheSet m "transactions" (Payload.txJson (some (queryTransactions s))) 60))) ∧
    (∀ (m : CacheMap) (today : Int) (s : Store),
      (cacheGet m "analytics").bind unmarshalAnalytics = none →
      env.dbOk = true → env.setOk = true →
      getAnalytics env (some m) today s
        = (HResp.ok (queryAnalytics today s),
           some (cacheSet m "analytics" (Payload.analyticsJson (queryAnalytics today s)) 300))) ∧
    (∀ (m : CacheMap) (s : Store),
      (cacheGet m "transactions").bind unmarshalTransactions = none →
      env.dbOk = true → env.setOk = false →
      getTransactions env (some m) s = (HResp.ok (some (queryTransactions s)), some m)) ∧
    (∀ (m : CacheMap) (today : Int) (s : Store),
      (cacheGet m "analytics").bind unmarshalAnalytics = none →
      env.dbOk = true → env.setOk = false →
      getAnalytics env (some m) today s = (HResp.ok (queryAnalytics today s), some m)) := by
  refine ⟨?_, ?_, ?_, ?_, ?_, ?_⟩
  · intro m p v s h1 h2
    simp [getTransactions, h1, h2]
  · intro m p a today s h1 h2
    simp [getAnalytics, h1, h2]
  · intro m s h hdb hset
    simp [getTransactions, h, getTransactionsStore, hdb, hset]
  · intro m today s h hdb hset
    simp [getAnalytics, h, getAnalyticsStore, hdb, hset]
  · intro m s h hdb hset
    simp [getTransactions, h, getTransactionsStore, hdb, hset]
  · intro m today s h hdb hset
    simp [getAnalytics, h, getAnalyticsStore, hdb, hset]

theorem claim_C2_read_path_policy_witness :
    getTransactions ⟨true, true, true, true⟩
        (some [("transactions", Payload.txJson (some []), 60)]) ⟨[], [], 1⟩
      = (HResp.ok (some []), some [("transactions", Payload.txJson (some []), 60)]) :=
  (claim_C2_read_path_policy ⟨true, true, true, true⟩).1
    [("transactions", Payload.txJson (some []), 60)] (Payload.txJson (some []))
    (some []) ⟨[], [], 1⟩ rfl rfl

/-- Claim C6: when the Store mutation fails, the request aborts with an
error and neither the store nor the cache is touched. -/
theorem claim_C6_store_failure_aborts (env : ReqEnv) (redis : Option CacheMap)
    (now : String) (s : Store) (t : NewTransaction) (id : Int)
    (h : env.dbOk = false) :
    addTransaction env redis now s t = (HResp.err, s, redis) ∧
    deleteTransaction env redis s id = (HResp.err, s, redis) := by
  constructor
  · rw [addTransaction, if_neg (by simp [h])]
  · rw [deleteTransaction, if_neg (by simp [h])]

theorem claim_C6_store_failure_aborts_witness :
    addTransaction ⟨false, true, true, true⟩ (some []) "now" ⟨[], [], 1⟩
        ⟨0, "d", 100, none, "expense", none⟩ = (HResp.err, ⟨[], [], 1⟩, some []) ∧
    deleteTransaction ⟨false, true, true, true⟩ (some []) ⟨[], [], 1⟩ 1
      = (HResp.err, ⟨[], [], 1⟩, some []) :=
  claim_C6_store_failure_aborts ⟨false, true, true, true⟩ (some []) "now" ⟨[], [], 1⟩
    ⟨0, "d", 100, none, "expense", none⟩ 1 rfl

/-- Claim C9: with the cache entirely absent, every endpoint produces the
same response as the cache-enabled configuration on the same Store state
(reads compared against a fresh, empty cache; mutations against any cache
contents), and mutations produce the same resulting Store. -/
theorem claim_C9_cache_absent_equivalence (env : ReqEnv) (now : String) (s : Store)
    (t : NewTransaction) (id today : Int) :
    (getTransactions env none s).1 = (getTransactions env (some []) s).1 ∧
    (getAnalytics env none today s).1 = (getAnalytics env (some []) today s).1 ∧
    (∀ m : CacheMap,
      (addTransaction env none now s t).1 = (addTransaction env (some m) now s t).1 ∧
      (addTransaction env none now s t).2.1 = (addTransaction env (some m) now s t).2.1) ∧
    (∀ m : CacheMap,
      (deleteTransaction env none s id).1 = (deleteTransaction env (some m) s id).1 ∧
      (deleteTransaction env none s id).2.1 = (deleteTransaction env (some m) s id).2.1) := by
  obtain ⟨db, st, d1, d2⟩ := env
  cases db <;> exact ⟨rfl, rfl, fun m => ⟨rfl, rfl⟩, fun m => ⟨rfl, rfl⟩⟩

/-- Claim C4: the summary sums income and expense amounts independently
over exactly the window `date >= today - 30` (a row dated exactly 30 days
ago is in the window, one dated 31 days ago is not), both sums default to
zero on an empty window, and the count covers all window rows of both
types. -/
theorem claim_C4_summary_window (today : Int) (s : Store) :
    (summaryQuery today s).totalIncome
      = (((s.transactions.filter (fun r => inWindow today r)).filter
            (fun r => r.type == "income")).map (fun r => r.amount)).sum ∧
    (summaryQuery today s).totalExpenses
      = (((s.transactions.filter (fun r => inWindow today r)).filter
            (fun r => r.type == "expense")).map (fun r => r.amount)).sum ∧
    (summaryQuery today s).transactionCount
      = ((s.transactions.filter (fun r => inWindow today r)).length : Int) ∧
    (∀ r : TxRow, r.date = today - 30 → inWindow today r = true) ∧
    (∀ r : TxRow, r.date = today - 31 → inWindow today r = false) ∧
    (s.transactions.filter (fun r => inWindow today r) = [] →
      summaryQuery today s = ⟨0, 0, 0⟩) := by
  refine ⟨?_, ?_, rfl, ?_, ?_, ?_⟩
  · exact sum_map_ite_eq_sum_filter _ _
  · exact sum_map_ite_eq_sum_filter _ _
  · intro r h
    rw [inWindow, h]
    simp
  · intro r h
    rw [inWindow, h]
    simp only [decide_eq_false_iff_not]
    omega
  · intro h
    simp [summaryQuery, h]

theorem claim_C4_summary_window_witness :
    inWindow 0 ⟨1, -31, "d", 100, none, "expense", none, "c"⟩ = false :=
  (claim_C4_summary_window 0 ⟨[], [], 1⟩).2.2.2.2.1
    ⟨1, -31, "d", 100, none, "expense", none, "c"⟩ (by decide)

theorem length_le_filter_ne_add_one (l : List TxRow) (id : Int)
    (h : (l.map (fun r => r.id)).Nodup) :
    l.length ≤ (l.filter (fun r => r.id != id)).length + 1 := by
  induction l with
  | nil => simp
  | cons r l ih =>
    rw [List.map_cons, List.nodup_cons] at h
    obtain ⟨hr, hl⟩ := h
    by_cases hid : r.id = id
    · have hfl : l.filter (fun x => x.id != id) = l := by
        refine List.filter_eq_self.mpr ?_
        intro a ha
        have hane : a.id ≠ id := by
          intro he
          exact hr (List.mem_map.mpr ⟨a, ha, by rw [he, hid]⟩)
        simpa [bne] using hane
      rw [List.filter_cons, if_neg (by simp [bne, hid]), hfl]
      simp
    · rw [List.filter_cons, if_pos (by simp [bne, hid])]
      simp only [List.length_cons]
      have := ih hl
      omega

/-- Claim C7: deleting by identifier succeeds, removes at most one row
when identifiers are unique (the `id` column is a primary key), and is a
successful no-op when the identifier does not exist. -/
theorem claim_C7_delete_at_most_one (env : ReqEnv) (redis : Option CacheMap)
    (s : Store) (id : Int) (hdb : env.dbOk = true)
    (hnd : (s.transactions.map (fun r => r.id)).Nodup) :
    (deleteTransaction env redis s id).1 = HResp.ok () ∧
    (deleteTransaction env redis s id).2.1.transactions.length ≤ s.transactions.length ∧
    s.transactions.length ≤ (deleteTransaction env redis s id).2.1.transactions.length + 1 ∧
    ((∀ r ∈ s.transactions, r.id ≠ id) → (deleteTransaction env redis s id).2.1 = s) := by
  have hred : (deleteTransaction env redis s id).2.1
      = { s with transactions := s.transactions.filter (fun r => r.id != id) } := by
    simp [deleteTransaction, hdb]
  refine ⟨?_, ?_, ?_, ?_⟩
  · simp [deleteTransaction, hdb]
  · rw [hred]
    exact List.length_filter_le _ _
  · rw [hred]
    exact length_le_filter_ne_add_one s.transactions id hnd
  · intro hno
    rw [hred]
    have hfe : s.transactions.filter (fun r => r.id != id) = s.transactions :=
      List.filter_eq_self.mpr (fun a ha => by simpa [bne] using hno a ha)
    rw [hfe]

theorem claim_C7_delete_at_most_one_witness :
    (deleteTransaction ⟨true, true, true, true⟩ none
        ⟨[⟨1, 0, "a", 5, none, "expense", none, "c"⟩,
          ⟨2, 0, "b", 7, none, "income", none, "c"⟩], [], 3⟩ 9).1 = HResp.ok () :=
  (claim_C7_delete_at_most_one ⟨true, true, true, true⟩ none
    ⟨[⟨1, 0, "a", 5, none, "expense", none, "c"⟩,
      ⟨2, 0, "b", 7, none, "income", none, "c"⟩], [], 3⟩ 9 rfl (by decide)).1

/-- Claim C8: the transaction listing returns, for every store state, a
sequence sorted newest-date-first, capped at 100 rows, each row being a
store transaction joined (left join) to its category's name and color,
which are both null when the transaction has no matching category. -/
theorem claim_C8_listing_shape (env : ReqEnv) (s : Store) (hdb : env.dbOk = true) :
    ∃ v : List Transaction, (getTransactions env none s).1 = HResp.ok (some v) ∧
      v.length ≤ 100 ∧
      v.Pairwise (fun a b => b.date ≤ a.date) ∧
      (∀ tr ∈ v, ∃ r ∈ s.transactions, tr = joinRow s.categories r) ∧
      (∀ tr ∈ v,
        tr.categoryName = (lookupCategory s.categories tr.categoryId).map (fun c => c.name) ∧
        tr.categoryColor = (lookupCategory s.categories tr.categoryId).map (fun c => c.color)) ∧
      (∀ tr ∈ v, tr.categoryId = none → tr.categoryName = none ∧ tr.categoryColor = none) := by
  refine ⟨queryTransactions s, ?_, ?_, ?_, ?_, ?_, ?_⟩
  · simp [getTransactions, getTransactionsStore, hdb]
  · rw [queryTransactions, List.length_map, List.length_take]
    exact min_le_left _ _
  · rw [queryTransactions]
    have hs := pairwise_sortLe (fun a b : TxRow => decide (b.date ≤ a.date))
      (fun a b h => by
        simp only [decide_eq_false_iff_not] at h
        simp only [decide_eq_true_eq]
        omega)
      (fun a b c h1 h2 => by
        simp only [decide_eq_true_eq] at h1 h2 ⊢
        omega)
      s.transactions
    have htake := List.Pairwise.sublist (List.take_sublist 100 _) hs
    refine List.Pairwise.map (joinRow s.categories) ?_ htake
    intro a b h
    exact of_decide_eq_true h
  · intro tr htr
    rw [queryTransactions] at htr
    obtain ⟨r, hr, hjr⟩ := List.mem_map.mp htr
    refine ⟨r, ?_, hjr.symm⟩
    have hrs : r ∈ sortLe (fun a b => decide (b.date ≤ a.date)) s.transactions :=
      (List.take_sublist 100 _).mem hr
    exact (sortLe_perm _ _).mem_iff.mp hrs
  · intro tr htr
    rw [queryTransactions] at htr
    obtain ⟨r, _, hjr⟩ := List.mem_map.mp htr
    rw [← hjr]
    exact ⟨rfl, rfl⟩
  · intro tr htr hnone
    rw [queryTransactions] at htr
    obtain ⟨r, _, hjr⟩ := List.mem_map.mp htr
    rw [← hjr] at hnone ⊢
    have hr0 : r.categoryId = none := hnone
    simp [joinRow, lookupCategory, hr0]

theorem claim_C8_listing_shape_witness :
    ∃ v : List Transaction,
      (getTransactions ⟨true, true, true, true⟩ none ⟨[], [], 1⟩).1 = HResp.ok (some v) ∧
      v.length ≤ 100 ∧
      v.Pairwise (fun a b => b.date ≤ a.date) ∧
      (∀ tr ∈ v, ∃ r ∈ (⟨[], [], 1⟩ : Store).transactions, tr = joinRow [] r) ∧
      (∀ tr ∈ v,
        tr.categoryName = (lookupCategory [] tr.categoryId).map (fun c => c.name) ∧
        tr.categoryColor = (lookupCategory [] tr.categoryId).map (fun c => c.color)) ∧
      (∀ tr ∈ v, tr.categoryId = none → tr.categoryName = none ∧ tr.categoryColor = none) :=
  claim_C8_listing_shape ⟨true, true, true, true⟩ ⟨[], [], 1⟩ rfl

/-- Claim C10: when zero rows match, both the transaction listing and the
analytics by-category breakdown are the non-nil empty slice (JSON `[]`,
never `null`); and whatever the store holds, the slices returned by the
store path are always non-nil. -/
theorem claim_C10_empty_array (env : ReqEnv) (today : Int) (s1 s2 : Store)
    (hdb : env.dbOk = true) (h1 : s1.transactions = [])
    (h2 : joinedExpenses today s2 = []) :
    (getTransactions env none s1).1 = HResp.ok (some []) ∧
    (getAnalytics env none today s2).1
      = HResp.ok { summary := summaryQuery today s2, byCategory := some [] } ∧
    (∀ s : Store, ∃ l : List Transaction,
        (getTransactions env none s).1 = HResp.ok (some l)) ∧
    (∀ s : Store, ∃ l : List CategoryAnalytics,
        (getAnalytics env none today s).1
          = HResp.ok { summary := summaryQuery today s, byCategory := some l }) := by
  refine ⟨?_, ?_, ?_, ?_⟩
  · simp [getTransactions, getTransactionsStore, hdb, queryTransactions, h1, sortLe]
  · have hc : categoryQuery today s2 = [] := by
      rw [categoryQuery, h2]
      rfl
    simp [getAnalytics, getAnalyticsStore, hdb, queryAnalytics, hc]
  · intro s
    exact ⟨queryTransactions s, by simp [getTransactions, getTransactionsStore, hdb]⟩
  · intro s
    exact ⟨categoryQuery today s, by simp [getAnalytics, getAnalyticsStore, hdb, queryAnalytics]⟩

theorem claim_C10_empty_array_witness :
    (getTransactions ⟨true, true, true, true⟩ none ⟨[], [], 1⟩).1 = HResp.ok (some []) ∧
    (getAnalytics ⟨true, true, true, true⟩ none 0 ⟨[], [], 1⟩).1
      = HResp.ok { summary := summaryQuery 0 ⟨[], [], 1⟩, byCategory := some [] } ∧
    (∀ s : Store, ∃ l : List Transaction,
        (getTransactions ⟨true, true, true, true⟩ none s).1 = HResp.ok (some l)) ∧
    (∀ s : Store, ∃ l : List CategoryAnalytics,
        (getAnalytics ⟨true, true, true, true⟩ none 0 s).1
          = HResp.ok { summary := summaryQuery 0 s, byCategory := some l }) :=
  claim_C10_empty_array ⟨true, true, true, true⟩ 0 ⟨[], [], 1⟩ ⟨[], [], 1⟩ rfl rfl rfl

theorem categoryQuery_perm (today : Int) (s : Store) :
    (categoryQuery today s).Perm
      ((groupKeys (joinedExpenses today s)).map
        (fun k => CategoryAnalytics.mk k.1 k.2 (groupTotal (joinedExpenses today s) k))) :=
  sortLe_perm _ _

theorem categoryQuery_keys_perm (today : Int) (s : Store) :
    ((categoryQuery today s).map (fun g => (g.name, g.color))).Perm
      (groupKeys (joinedExpenses today s)) := by
  have h2 := (categoryQuery_perm today s).map (fun g => (g.name, g.color))
  rw [List.map_map] at h2
  have h3 : ((fun g : CategoryAnalytics => (g.name, g.color)) ∘
      (fun k : String × String =>
        CategoryAnalytics.mk k.1 k.2 (groupTotal (joinedExpenses today s) k))) = id := by
    funext k
    simp
  rw [h3, List.map_id] at h2
  exact h2

/-- Claim C5: the by-category breakdown groups exactly the expense
transactions of the 30-day window that join to an existing category
(uncategorized rows contribute nothing), keyed by `(name, color)` without
duplicate groups, each group carrying the sum of its amounts, and the
groups are sorted by descending summed amount. -/
theorem claim_C5_by_category_breakdown (today : Int) (s : Store) :
    (categoryQuery today s).Pairwise (fun a b => b.total ≤ a.total) ∧
    (∀ g ∈ categoryQuery today s,
      g.total = groupTotal (joinedExpenses today s) (g.name, g.color)) ∧
    (∀ n c, (n, c) ∈ (categoryQuery today s).map (fun g => (g.name, g.color)) ↔
            (n, c) ∈ (joinedExpenses today s).map (fun r => (r.1, r.2.1))) ∧
    ((categoryQuery today s).map (fun g => (g.name, g.color))).Nodup ∧
    (∀ n c amt, (n, c, amt) ∈ joinedExpenses today s ↔
      ∃ r ∈ s.transactions, inWindow today r = true ∧ r.type = "expense" ∧
        r.amount = amt ∧
        ∃ cat, lookupCategory s.categories r.categoryId = some cat ∧
          cat.name = n ∧ cat.color = c) := by
  refine ⟨?_, ?_, ?_, ?_, ?_⟩
  · have hs := pairwise_sortLe (fun a b : CategoryAnalytics => decide (b.total ≤ a.total))
      (fun a b h => by
        simp only [decide_eq_false_iff_not] at h
        simp only [decide_eq_true_eq]
        omega)
      (fun a b c h1 h2 => by
        simp only [decide_eq_true_eq] at h1 h2 ⊢
        omega)
      ((groupKeys (joinedExpenses today s)).map
        (fun k => CategoryAnalytics.mk k.1 k.2 (groupTotal (joinedExpenses today s) k)))
    exact hs.imp (fun h => of_decide_eq_true h)
  · intro g hg
    obtain ⟨k, _, hgk⟩ := List.mem_map.mp ((categoryQuery_perm today s).mem_iff.mp hg)
    rw [← hgk]
  · intro n c
    rw [(categoryQuery_keys_perm today s).mem_iff, groupKeys, List.mem_dedup]
  · exact (categoryQuery_keys_perm today s).nodup_iff.mpr
      (by rw [groupKeys]; exact List.nodup_dedup _)
  · intro n c amt
    constructor
    · intro h
      obtain ⟨r, hr, hf⟩ := List.mem_filterMap.mp h
      by_cases hcond : (inWindow today r && r.type == "expense") = true
      · rw [if_pos hcond] at hf
        obtain ⟨hw, hty⟩ : inWindow today r = true ∧ r.type = "expense" := by
          simpa using hcond
        rcases hcat : lookupCategory s.categories r.categoryId with _ | cat
        · rw [hcat] at hf
          simp at hf
        · rw [hcat] at hf
          simp only [Option.some.injEq, Prod.mk.injEq] at hf
          obtain ⟨hn, hc, ha⟩ := hf
          exact ⟨r, hr, hw, hty, ha, cat, hcat, hn, hc⟩
      · rw [if_neg hcond] at hf
        simp at hf
    · rintro ⟨r, hr, hw, hty, ha, cat, hcat, hn, hc⟩
      refine List.mem_filterMap.mpr ⟨r, hr, ?_⟩
      rw [if_pos (by simp [hw, hty])]
      simp [hcat, hn, hc, ha]

theorem claim_C5_by_category_breakdown_witness :
    (categoryQuery 0
      (⟨[⟨1, 0, "a", 500, some 1, "expense", none, "c"⟩],
        [⟨1, "Groceries", "expense", "#e74c3c", "c"⟩], 2⟩ : Store)).Pairwise
      (fun a b => b.total ≤ a.total) :=
  (claim_C5_by_category_breakdown 0
    ⟨[⟨1, 0, "a", 500, some 1, "expense", none, "c"⟩],
     [⟨1, "Groceries", "expense", "#e74c3c", "c"⟩], 2⟩).1
